import Mathlib

/-!
Verification development for `springer_free_books` (`src/main.py`).

Python strings are embedded as `List Char`.  The library functions the
source relies on (`str.replace`, `urllib.parse.unquote`, `os.path.split`,
`str.translate`, `str.lower`) are modelled below, and the repository's own
functions (`parse_book_url`, `book_info_from_table`, `download_book`,
`download_books`) are translated line by line on top of them.
-/

deriving instance DecidableEq for Except

namespace Springer

abbrev Str := List Char

/-- Model of Python `str.replace pat rep` (left-to-right scan replacing
non-overlapping occurrences), written with explicit fuel so that it is
structurally recursive and computes by `decide`/`rfl`.  An empty pattern is
treated as "no occurrence" (the source only ever uses the nonempty patterns
`"book"`, `" "` and `","`, so that corner of Python semantics is never
exercised). -/
def replaceAllFuel : Nat → Str → Str → Str → Str
  | 0, _, _, s => s
  | Nat.succ fuel, pat, rep, s =>
    match s with
    | [] => []
    | c :: cs =>
      if pat ≠ [] ∧ pat.isPrefixOf (c :: cs) then
        rep ++ replaceAllFuel fuel pat rep ((c :: cs).drop pat.length)
      else
        c :: replaceAllFuel fuel pat rep cs

/-- Python `s.replace(pat, rep)`: run the fueled scanner with enough fuel. -/
def replaceAll (pat rep s : Str) : Str := replaceAllFuel s.length pat rep s

/-- Hex value of a character, for percent-decoding. -/
def hexVal (c : Char) : Option Nat :=
  if '0' ≤ c ∧ c ≤ '9' then some (c.toNat - '0'.toNat)
  else if 'a' ≤ c ∧ c ≤ 'f' then some (c.toNat - 'a'.toNat + 10)
  else if 'A' ≤ c ∧ c ≤ 'F' then some (c.toNat - 'A'.toNat + 10)
  else none

/-- Model of `urllib.parse.unquote`: every valid `%XX` escape becomes the
character with code `16*X₁ + X₂`; an invalid escape is left verbatim.
Multi-byte UTF-8 escape sequences are not recombined into one code point
(every input exercised in this development is ASCII, where the model agrees
with Python exactly). -/
def unquote : Str → Str
  | [] => []
  | '%' :: h1 :: h2 :: rest =>
    match hexVal h1, hexVal h2 with
    | some a, some b => Char.ofNat (16 * a + b) :: unquote rest
    | _, _ => '%' :: unquote (h1 :: h2 :: rest)
  | c :: rest => c :: unquote rest

/-- Model of `os.path.split(s)[1]` on POSIX: the part of `s` after the last
slash (all of `s` when there is no slash). -/
def basename (s : Str) : Str := (s.reverse.takeWhile (fun c => c ≠ '/')).reverse

/-- Model of `s.translate(str.maketrans({"/": "_"}))` from `parse_book_url`:
map the slash character to an underscore, character by character. -/
def translateSlash (s : Str) : Str := s.map (fun c => if c = '/' then '_' else c)

/-- Model of Python `str.lower` (ASCII-faithful). -/
def lowerStr (s : Str) : Str := s.map Char.toLower

/-- The Python exceptions raised by the translated code:
`ValueError` from `parse_book_url` (line 32) and the `AttributeError` that
`book_info_from_table` hits when the package-name cell is missing (a pandas
`NaN` float has no `.replace`). -/
inductive PyError
  | valueError
  | attributeError
deriving DecidableEq, Repr

/-- Translation of `parse_book_url` (main.py lines 13-49).  Returns the pair
`(download_url, new_fname)` or the raised `ValueError`. -/
def parse_book_url (url title author format_ : Str) : Except PyError (Str × Str) :=
  let fmt := lowerStr format_
  let decoded := unquote url
  let durl : Except PyError Str :=
    if fmt = "pdf".toList then
      Except.ok (replaceAll "book".toList ("content/".toList ++ fmt) decoded)
    else if fmt = "epub".toList then
      Except.ok (replaceAll "book".toList ("download/".toList ++ fmt) decoded)
    else
      Except.error PyError.valueError
  match durl with
  | Except.error e => Except.error e
  | Except.ok du =>
    let download_url := du ++ '.' :: fmt
    let original_fname := basename download_url
    let new_fname :=
      translateSlash title ++ " - ".toList ++ translateSlash author
        ++ " - ".toList ++ original_fname
    Except.ok (download_url, new_fname)

/-- `pat` occurs as a contiguous sublist of `s`. -/
def containsSub (pat s : Str) : Bool :=
  (List.range (s.length + 1)).any (fun i => pat.isPrefixOf (s.drop i))

/-- One catalog entry, the dict yielded by `book_info_from_table`
(fields `title`, `author`, `pkg`, `url`). -/
structure Book where
  title : Str
  author : Str
  pkg : Str
  url : Str
deriving DecidableEq, Repr

/-- The network, seen through `requests.get`.
`landing url` is the landing-page fetch of main.py line 80: `some u` means
the request object whose final (post-redirect) address is `u`, `none` means
the call raised.  `asset url` is an asset fetch (lines 91 and 107, with
`allow_redirects=True`): `some (status, body)` is a response with that
status code and body bytes, `none` means the call raised.  A `Net` is a
function, so the modelled network is deterministic within a run. -/
structure Net where
  landing : Str → Option Str
  asset : Str → Option (Nat × List Nat)

/-- The filesystem: the list of written files, newest first.
`pathlib.Path.exists` is a key lookup; `open(path, "wb")` followed by
`f.write(body)` prepends `(path, body)`. -/
abbrev FS := List (Str × List Nat)

def fsExists (fs : FS) (p : Str) : Bool := fs.any (fun e => e.1 = p)

def fsWrite (fs : FS) (p : Str) (body : List Nat) : FS := (p, body) :: fs

/-- POSIX path join `a / b` of `pathlib`. -/
def joinPath (a b : Str) : Str := a ++ '/' :: b

/-- The values stored in the `success` dict of `download_book`:
`None`, `"exists"`, `False`, `True` (the last two from `ret > 0`). -/
inductive SVal
  | vNone
  | vExists
  | vFalse
  | vTrue
deriving DecidableEq, Repr

/-- Result of one format's block inside `download_book` when it completes:
the final value of `success[fmt]`, the ordered list of assignments made to
`success[fmt]`, the asset GET requests issued, and the filesystem after the
block. -/
structure StepOut where
  val : SVal
  trace : List SVal
  gets : List Str
  fs : FS
deriving DecidableEq, Repr

/-- One format's block of `download_book` (main.py lines 87-95 for pdf and
103-111 for epub, which are the same code up to renaming): skip when the
target exists, otherwise set the provisional `False`, issue the GET, and on
status 200 write the body and set `ret > 0`.  A raised asset GET propagates:
the error value carries the requests issued and the filesystem so far. -/
def format_step (net : Net) (fs : FS) (fpath durl : Str) : Except (List Str × FS) StepOut :=
  if fsExists fs fpath then
    Except.ok ⟨SVal.vExists, [SVal.vExists], [], fs⟩
  else
    match net.asset durl with
    | none => Except.error ([durl], fs)
    | some (status, body) =>
      if status = 200 then
        let v := if 0 < body.length then SVal.vTrue else SVal.vFalse
        Except.ok ⟨v, [SVal.vFalse, v], [durl], fsWrite fs fpath body⟩
      else
        Except.ok ⟨SVal.vFalse, [SVal.vFalse], [durl], fs⟩

/-- The `success` dict attached to a book at main.py line 112. -/
structure Success where
  pdf : SVal
  epub : SVal
deriving DecidableEq, Repr

/-- A book after `download_book` ran for it: `success = none` when the run
raised before line 112, so no `success` key was attached to the dict. -/
structure BookOut where
  book : Book
  success : Option Success
deriving DecidableEq, Repr

/-- Outcome of one `download_book` call: either a completed run (the book
with its attached `success` dict, the final filesystem, the asset GETs
issued, and the assignment traces of `success["pdf"]` and
`success["epub"]`), or a propagated exception (with the side effects made
before the raise). -/
inductive DBResult
  | ok (out : BookOut) (fs : FS) (gets : List Str) (pdfTrace epubTrace : List SVal)
  | exn (fs : FS) (gets : List Str)
deriving DecidableEq, Repr

/-- Translation of `download_book` (main.py lines 71-113).  The two
`parse_book_url` error matches are unreachable (the formats are the literals
`"pdf"` and `"epub"`); they are mapped to the exception result exactly as a
raised `ValueError` would propagate in Python. -/
def download_book (book : Book) (dst : Str) (get_epub : Bool) (net : Net) (fs : FS) : DBResult :=
  let book_dir := joinPath dst book.pkg
  match net.landing book.url with
  | none => DBResult.exn fs []
  | some resolved =>
    match parse_book_url resolved book.title book.author "pdf".toList with
    | Except.error _ => DBResult.exn fs []
    | Except.ok (pdf_durl, pdf_fname) =>
      match format_step net fs (joinPath book_dir pdf_fname) pdf_durl with
      | Except.error (g, fs1) => DBResult.exn fs1 g
      | Except.ok st1 =>
        if get_epub then
          match parse_book_url resolved book.title book.author "epub".toList with
          | Except.error _ => DBResult.exn st1.fs st1.gets
          | Except.ok (ep_durl, ep_fname) =>
            match format_step net st1.fs (joinPath book_dir ep_fname) ep_durl with
            | Except.error (g, fs2) => DBResult.exn fs2 (st1.gets ++ g)
            | Except.ok st2 =>
              DBResult.ok ⟨book, some ⟨st1.val, st2.val⟩⟩ st2.fs
                (st1.gets ++ st2.gets) st1.trace st2.trace
        else
          DBResult.ok ⟨book, some ⟨st1.val, SVal.vNone⟩⟩ st1.fs st1.gets st1.trace []

/-- Translation of `download_books` (main.py lines 116-124).  The thread
pool runs one `download_book` per book; each future mutates only its own
book dict, the futures are never inspected, so an exception inside one is
swallowed and that book keeps no `success` key; the function returns the
`books` list itself, in input order.  Interleaving of the shared filesystem
between workers is not modelled: every book is evaluated against the
initial filesystem (the claims below do not depend on cross-book
filesystem effects). -/
def download_books (dst : Str) (books : List Book) (get_epub : Bool) (net : Net) (fs : FS) : List BookOut :=
  books.map fun b =>
    match download_book b dst get_epub net fs with
    | DBResult.ok out _ _ _ _ => out
    | DBResult.exn _ _ => ⟨b, none⟩

/-- One row of the spreadsheet restricted to the four used columns
`Book Title`, `Author`, `English Package Name`, `OpenURL`.  A `none` field
models a missing cell (a pandas `NaN`, which is a float, not a string). -/
structure Row where
  title : Option Str
  author : Option Str
  pkg : Option Str
  url : Option Str
deriving DecidableEq, Repr

/-- The dict yielded by `book_info_from_table` for one row; the fields keep
the possibly-missing values that the code passes through untouched. -/
structure BookRec where
  title : Option Str
  author : Option Str
  pkg : Option Str
  url : Option Str
deriving DecidableEq, Repr

/-- `pkg.replace(" ", "_").replace(",", "")` from main.py line 66. -/
def normalizePkg (p : Str) : Str := replaceAll [','] [] (replaceAll [' '] ['_'] p)

/-- One loop iteration of `book_info_from_table` (main.py lines 62-68): the
title, author and url cells are passed through as they are; the package
cell has `.replace` called on it, which raises `AttributeError` when the
cell is a missing-value `NaN` float. -/
def rowToBook (r : Row) : Except PyError BookRec :=
  match r.pkg with
  | none => Except.error PyError.attributeError
  | some p => Except.ok ⟨r.title, r.author, some (normalizePkg p), r.url⟩

/-- Translation of `book_info_from_table` (main.py lines 52-68) as consumed
eagerly by `list(...)` at line 117: one record per row, aborted by the
first raised exception. -/
def book_info_from_table : List Row → Except PyError (List BookRec)
  | [] => Except.ok []
  | r :: rs =>
    match rowToBook r with
    | Except.error e => Except.error e
    | Except.ok b =>
      match book_info_from_table rs with
      | Except.error e => Except.error e
      | Except.ok bs => Except.ok (b :: bs)

/-- Closed form of the pdf download URL produced by `parse_book_url`. -/
def pdfUrl (u : Str) : Str :=
  replaceAll "book".toList "content/pdf".toList (unquote u) ++ ".pdf".toList

/-- Closed form of the epub download URL produced by `parse_book_url`. -/
def epubUrl (u : Str) : Str :=
  replaceAll "book".toList "download/epub".toList (unquote u) ++ ".epub".toList

/-- Closed form of the local filename produced by `parse_book_url`. -/
def mkFname (title author du : Str) : Str :=
  translateSlash title ++ " - ".toList ++ translateSlash author
    ++ " - ".toList ++ basename du

/-- No occurrence of `pat` starts strictly inside `a` in the string
`a ++ pat ++ anything` (such an occurrence would end inside `pat`, so the
condition only depends on `a ++ pat`).  This rules out degenerate overlaps
at the junction when reasoning about the left-to-right replacement scan. -/
def cleanJunction (a pat : Str) : Bool :=
  (List.range a.length).all (fun i => !(pat.isPrefixOf ((a ++ pat).drop i)))

/-- Join a list of pieces with a separator (`sep.join(pieces)` shape),
used to describe strings with a known number of pattern occurrences. -/
def interc (sep : Str) : List Str → Str
  | [] => []
  | [g] => g
  | g :: g2 :: gs => g ++ (sep ++ interc sep (g2 :: gs))

/-- The record `book_info_from_table` yields for a row whose package cell is
present: title, author and url are passed through, the package name is
normalized. -/
def okRow (r : Row) : BookRec := ⟨r.title, r.author, r.pkg.map normalizePkg, r.url⟩

/-- Concrete fixture: a book whose landing page resolves and whose assets
download with status 200. -/
def bookA : Book := ⟨"T".toList, "A".toList, "P".toList, "b1".toList⟩

/-- Concrete fixture: a book whose landing-page fetch raises. -/
def bookBad : Book := ⟨"T".toList, "A".toList, "P".toList, "b0".toList⟩

/-- Concrete fixture: a book whose landing page resolves but whose pdf asset
fetch raises. -/
def bookAssetRaise : Book := ⟨"T".toList, "A".toList, "P".toList, "b2".toList⟩

/-- Concrete fixture network: landing raises for `bookBad`, resolves
`bookAssetRaise` to a landing URL whose pdf asset fetch raises, and resolves
everything else to a URL whose assets answer 200 with a one-byte body. -/
def netFix : Net :=
  ⟨fun u =>
    if u = "b0".toList then none
    else if u = "b2".toList then some "https://y/book/2".toList
    else some "https://x/book/1".toList,
   fun d =>
    if d = "https://y/content/pdf/2.pdf".toList then none
    else some (200, [7])⟩

/-- Concrete fixture network answering 404 to every asset fetch. -/
def net404 : Net := ⟨fun _ => none, fun _ => some (404, [7])⟩

/-- The filesystem left by a completed `download_book bookA` run against
`netFix` with epub requested. -/
def fs1W : FS :=
  [("d/P/T - A - 1.epub".toList, [7]), ("d/P/T - A - 1.pdf".toList, [7])]

/-- The asset GET requests issued by that same first run. -/
def gets1W : List Str :=
  ["https://x/content/pdf/1.pdf".toList, "https://x/download/epub/1.epub".toList]

/-- Concrete fixture: a one-row table with all four cells present. -/
def rowsW : List Row :=
  [⟨some "T".toList, some "A".toList, some "P Q".toList, some "u".toList⟩]

/-- Concrete fixture: a row whose package cell is missing. -/
def rowBad : Row := ⟨some "T".toList, some "A".toList, none, some "u".toList⟩

end Springer

namespace Springer

theorem replaceAllFuel_nil (f : Nat) (pat rep : Str) : replaceAllFuel f pat rep [] = [] := by
  cases f <;> rfl

theorem replaceAllFuel_congr :
    ∀ (f1 f2 : Nat) (pat rep s : Str), s.length ≤ f1 → s.length ≤ f2 →
      replaceAllFuel f1 pat rep s = replaceAllFuel f2 pat rep s := by
  intro f1
  induction f1 with
  | zero =>
    intro f2 pat rep s h1 _
    have hs : s = [] := List.length_eq_zero.mp (Nat.le_zero.mp h1)
    subst hs
    rw [replaceAllFuel_nil, replaceAllFuel_nil]
  | succ n ih =>
    intro f2 pat rep s h1 h2
    cases s with
    | nil => rw [replaceAllFuel_nil, replaceAllFuel_nil]
    | cons c cs =>
      cases f2 with
      | zero => simp at h2
      | succ m =>
        simp only [List.length_cons] at h1 h2
        simp only [replaceAllFuel]
        by_cases hp : pat ≠ [] ∧ pat.isPrefixOf (c :: cs)
        · rw [if_pos hp, if_pos hp]
          have hpat : 0 < pat.length := List.length_pos.mpr hp.1
          have hd : ((c :: cs).drop pat.length).length ≤ cs.length := by
            rw [List.length_drop]
            simp only [List.length_cons]
            omega
          congr 1
          exact ih m pat rep _ (by omega) (by omega)
        · rw [if_neg hp, if_neg hp]
          congr 1
          exact ih m pat rep cs (by omega) (by omega)

theorem replaceAll_cons_pos (pat rep : Str) (c : Char) (cs : Str)
    (h : pat ≠ [] ∧ pat.isPrefixOf (c :: cs)) :
    replaceAll pat rep (c :: cs) = rep ++ replaceAll pat rep ((c :: cs).drop pat.length) := by
  show replaceAllFuel (c :: cs).length pat rep (c :: cs) = _
  simp only [List.length_cons, replaceAllFuel, if_pos h]
  congr 1
  have hpat : 0 < pat.length := List.length_pos.mpr h.1
  apply replaceAllFuel_congr
  · rw [List.length_drop]
    simp only [List.length_cons]
    omega
  · exact Nat.le_refl _

theorem replaceAll_cons_neg (pat rep : Str) (c : Char) (cs : Str)
    (h : ¬(pat ≠ [] ∧ pat.isPrefixOf (c :: cs))) :
    replaceAll pat rep (c :: cs) = c :: replaceAll pat rep cs := by
  show replaceAllFuel (c :: cs).length pat rep (c :: cs) = _
  simp only [List.length_cons, replaceAllFuel, if_neg h]
  rfl

theorem containsSub_cons (pat : Str) (c : Char) (cs : Str) :
    containsSub pat (c :: cs) = (pat.isPrefixOf (c :: cs) || containsSub pat cs) := by
  show (List.range ((c :: cs).length + 1)).any (fun i => pat.isPrefixOf ((c :: cs).drop i)) = _
  rw [List.length_cons, List.range_succ_eq_map, List.any_cons, List.any_map]
  rfl

theorem replaceAll_of_not_contains (pat rep : Str) :
    ∀ s : Str, containsSub pat s = false → replaceAll pat rep s = s := by
  intro s
  induction s with
  | nil => intro _; rfl
  | cons c cs ih =>
    intro h
    rw [containsSub_cons] at h
    rcases Bool.or_eq_false_iff.mp h with ⟨h1, h2⟩
    rw [replaceAll_cons_neg pat rep c cs (by
      rintro ⟨-, hp⟩
      rw [hp] at h1
      exact Bool.noConfusion h1)]
    rw [ih h2]

theorem cleanJunction_cons (c : Char) (a pat : Str) (h : cleanJunction (c :: a) pat = true) :
    pat.isPrefixOf ((c :: a) ++ pat) = false ∧ cleanJunction a pat = true := by
  have hsplit : cleanJunction (c :: a) pat
      = (!(pat.isPrefixOf ((c :: a) ++ pat)) && cleanJunction a pat) := by
    show (List.range ((c :: a).length)).all
        (fun i => !(pat.isPrefixOf (((c :: a) ++ pat).drop i))) = _
    rw [List.length_cons, List.range_succ_eq_map, List.all_cons, List.all_map]
    rfl
  rw [hsplit, Bool.and_eq_true] at h
  obtain ⟨h0, hrest⟩ := h
  refine ⟨?_, hrest⟩
  cases hp : pat.isPrefixOf ((c :: a) ++ pat)
  · rfl
  · rw [hp] at h0
    exact Bool.noConfusion h0

theorem prefix_shorten (p x y : Str) (h : p <+: x ++ y) (hl : p.length ≤ x.length) :
    p <+: x := by
  rw [List.prefix_iff_eq_take] at h ⊢
  rw [List.take_append_of_le_length hl] at h
  exact h

theorem replaceAll_junction (pat rep : Str) (hpat : pat ≠ []) :
    ∀ (a t : Str), cleanJunction a pat = true →
      replaceAll pat rep (a ++ (pat ++ t)) = a ++ (rep ++ replaceAll pat rep t) := by
  intro a
  induction a with
  | nil =>
    intro t _
    simp only [List.nil_append]
    cases pat with
    | nil => exact absurd rfl hpat
    | cons p ps =>
      rw [List.cons_append, replaceAll_cons_pos (p :: ps) rep p (ps ++ t)
        ⟨by simp, by
          rw [List.isPrefixOf_iff_prefix, ← List.cons_append]
          exact List.prefix_append _ _⟩]
      rw [← List.cons_append, List.drop_left' rfl]
  | cons c a' ih =>
    intro t hc
    obtain ⟨h0, hrest⟩ := cleanJunction_cons c a' pat hc
    have hnp : ¬(pat ≠ [] ∧ pat.isPrefixOf (c :: (a' ++ (pat ++ t)))) := by
      rintro ⟨-, hp⟩
      have hp2 : pat <+: c :: (a' ++ (pat ++ t)) := List.isPrefixOf_iff_prefix.mp hp
      have hp' : pat <+: ((c :: a') ++ pat) ++ t := by
        simpa [List.cons_append, List.append_assoc] using hp2
      have hshort : pat <+: (c :: a') ++ pat := by
        apply prefix_shorten pat _ t hp'
        simp only [List.length_append]
        omega
      have hT : pat.isPrefixOf ((c :: a') ++ pat) = true :=
        List.isPrefixOf_iff_prefix.mpr hshort
      rw [h0] at hT
      exact Bool.noConfusion hT
    rw [List.cons_append, replaceAll_cons_neg pat rep c (a' ++ (pat ++ t)) hnp, ih t hrest,
      List.cons_append]

theorem interc_cons (sep g g2 : Str) (gs : List Str) :
    interc sep (g :: g2 :: gs) = g ++ (sep ++ interc sep (g2 :: gs)) := rfl

theorem replaceAll_interc (pat rep : Str) (hpat : pat ≠ []) :
    ∀ (init : List Str) (last : Str),
      (∀ g ∈ init, cleanJunction g pat = true) →
      containsSub pat last = false →
      replaceAll pat rep (interc pat (init ++ [last])) = interc rep (init ++ [last]) := by
  intro init
  induction init with
  | nil =>
    intro last _ hl
    exact replaceAll_of_not_contains pat rep last hl
  | cons g init' ih =>
    intro last hc hl
    cases hi : init' ++ [last] with
    | nil => simp at hi
    | cons x xs =>
      have hcvt : replaceAll pat rep (interc pat (init' ++ [last])) = interc rep (init' ++ [last]) :=
        ih last (fun g2 hg2 => hc g2 (List.mem_cons_of_mem _ hg2)) hl
      rw [hi] at hcvt
      rw [List.cons_append, hi, interc_cons, interc_cons,
        replaceAll_junction pat rep hpat g _ (hc g (List.mem_cons_self _ _)), hcvt]

theorem parse_book_url_pdf (u t a : Str) :
    parse_book_url u t a ['p', 'd', 'f'] = Except.ok (pdfUrl u, mkFname t a (pdfUrl u)) := rfl

theorem parse_book_url_epub (u t a : Str) :
    parse_book_url u t a ['e', 'p', 'u', 'b'] = Except.ok (epubUrl u, mkFname t a (epubUrl u)) := rfl

theorem fsExists_write_self (fs : FS) (p : Str) (body : List Nat) :
    fsExists (fsWrite fs p body) p = true := by
  simp [fsExists, fsWrite]

theorem fsExists_write_mono (fs : FS) (p q : Str) (body : List Nat)
    (h : fsExists fs p = true) : fsExists (fsWrite fs q body) p = true := by
  simp only [fsExists, fsWrite, List.any_cons, Bool.or_eq_true]
  right
  exact h

theorem format_step_skip (net : Net) (fs : FS) (fpath durl : Str)
    (h : fsExists fs fpath = true) :
    format_step net fs fpath durl = Except.ok ⟨SVal.vExists, [SVal.vExists], [], fs⟩ := by
  simp [format_step, h]

theorem format_step_200 (net : Net) (fs : FS) (fpath durl : Str) (body : List Nat)
    (h : fsExists fs fpath = false) (ha : net.asset durl = some (200, body)) :
    format_step net fs fpath durl
      = Except.ok ⟨if 0 < body.length then SVal.vTrue else SVal.vFalse,
          [SVal.vFalse, if 0 < body.length then SVal.vTrue else SVal.vFalse],
          [durl], fsWrite fs fpath body⟩ := by
  simp [format_step, h, ha]

theorem format_step_non200 (net : Net) (fs : FS) (fpath durl : Str) (status : Nat)
    (body : List Nat) (h : fsExists fs fpath = false)
    (ha : net.asset durl = some (status, body)) (hst : status ≠ 200) :
    format_step net fs fpath durl = Except.ok ⟨SVal.vFalse, [SVal.vFalse], [durl], fs⟩ := by
  simp [format_step, h, ha, hst]

theorem format_step_raise (net : Net) (fs : FS) (fpath durl : Str)
    (h : fsExists fs fpath = false) (ha : net.asset durl = none) :
    format_step net fs fpath durl = Except.error ([durl], fs) := by
  simp [format_step, h, ha]

theorem format_step_ok_cases (net : Net) (fs : FS) (fpath durl : Str) (st : StepOut)
    (h : format_step net fs fpath durl = Except.ok st) :
    (fsExists fs fpath = true ∧ st = ⟨SVal.vExists, [SVal.vExists], [], fs⟩) ∨
    (fsExists fs fpath = false ∧ ∃ body, net.asset durl = some (200, body) ∧
      st = ⟨if 0 < body.length then SVal.vTrue else SVal.vFalse,
            [SVal.vFalse, if 0 < body.length then SVal.vTrue else SVal.vFalse],
            [durl], fsWrite fs fpath body⟩) ∨
    (fsExists fs fpath = false ∧ ∃ status body, net.asset durl = some (status, body) ∧
      status ≠ 200 ∧ st = ⟨SVal.vFalse, [SVal.vFalse], [durl], fs⟩) := by
  by_cases he : fsExists fs fpath
  · left
    refine ⟨he, ?_⟩
    rw [format_step_skip net fs fpath durl he] at h
    exact (Except.ok.inj h).symm
  · have he' : fsExists fs fpath = false := by
      cases hb : fsExists fs fpath
      · rfl
      · exact absurd hb he
    cases ha : net.asset durl with
    | none =>
      rw [format_step_raise net fs fpath durl he' ha] at h
      exact Except.noConfusion h
    | some sb =>
      obtain ⟨status, body⟩ := sb
      by_cases hst : status = 200
      · subst hst
        right
        left
        refine ⟨he', body, rfl, ?_⟩
        rw [format_step_200 net fs fpath durl body he' ha] at h
        exact (Except.ok.inj h).symm
      · right
        right
        refine ⟨he', status, body, rfl, hst, ?_⟩
        rw [format_step_non200 net fs fpath durl status body he' ha hst] at h
        exact (Except.ok.inj h).symm

theorem format_step_ok_mono (net : Net) (fs : FS) (fpath durl : Str) (st : StepOut)
    (h : format_step net fs fpath durl = Except.ok st) :
    ∀ p, fsExists fs p = true → fsExists st.fs p = true := by
  intro p hp
  rcases format_step_ok_cases net fs fpath durl st h with
    ⟨-, rfl⟩ | ⟨-, body, -, rfl⟩ | ⟨-, status, body, -, -, rfl⟩
  · exact hp
  · exact fsExists_write_mono fs p fpath body hp
  · exact hp

theorem format_step_vTrue_written (net : Net) (fs : FS) (fpath durl : Str) (st : StepOut)
    (h : format_step net fs fpath durl = Except.ok st) (hv : st.val = SVal.vTrue) :
    fsExists st.fs fpath = true := by
  rcases format_step_ok_cases net fs fpath durl st h with
    ⟨-, rfl⟩ | ⟨-, body, -, rfl⟩ | ⟨-, status, body, -, -, rfl⟩
  · exact absurd hv (by simp)
  · exact fsExists_write_self fs fpath body
  · exact absurd hv (by simp)

theorem format_step_trace_shape (net : Net) (fs : FS) (fpath durl : Str) (st : StepOut)
    (h : format_step net fs fpath durl = Except.ok st) :
    (st.trace = [st.val] ∧ (st.val = SVal.vExists ∨ st.val = SVal.vFalse)) ∨
    st.trace = [SVal.vFalse, st.val] := by
  rcases format_step_ok_cases net fs fpath durl st h with
    ⟨-, rfl⟩ | ⟨-, body, -, rfl⟩ | ⟨-, status, body, -, -, rfl⟩
  · exact Or.inl ⟨rfl, Or.inl rfl⟩
  · exact Or.inr rfl
  · exact Or.inl ⟨rfl, Or.inr rfl⟩

theorem download_book_landing_raise (book : Book) (dst : Str) (ge : Bool) (net : Net)
    (fs : FS) (h : net.landing book.url = none) :
    download_book book dst ge net fs = DBResult.exn fs [] := by
  simp [download_book, h]

theorem download_book_asset_raise (book : Book) (dst : Str) (ge : Bool) (net : Net)
    (fs : FS) (u : Str) (g : List Str) (fs1 : FS)
    (hL : net.landing book.url = some u)
    (h1 : format_step net fs
        (joinPath (joinPath dst book.pkg) (mkFname book.title book.author (pdfUrl u)))
        (pdfUrl u) = Except.error (g, fs1)) :
    download_book book dst ge net fs = DBResult.exn fs1 g := by
  simp [download_book, hL, parse_book_url_pdf, h1]

theorem download_book_build_true (book : Book) (dst : Str) (net : Net) (fs : FS)
    (u : Str) (st1 st2 : StepOut)
    (hL : net.landing book.url = some u)
    (h1 : format_step net fs
        (joinPath (joinPath dst book.pkg) (mkFname book.title book.author (pdfUrl u)))
        (pdfUrl u) = Except.ok st1)
    (h2 : format_step net st1.fs
        (joinPath (joinPath dst book.pkg) (mkFname book.title book.author (epubUrl u)))
        (epubUrl u) = Except.ok st2) :
    download_book book dst true net fs
      = DBResult.ok ⟨book, some ⟨st1.val, st2.val⟩⟩ st2.fs
          (st1.gets ++ st2.gets) st1.trace st2.trace := by
  simp [download_book, hL, parse_book_url_pdf, parse_book_url_epub, h1, h2]

theorem download_book_build_false (book : Book) (dst : Str) (net : Net) (fs : FS)
    (u : Str) (st1 : StepOut)
    (hL : net.landing book.url = some u)
    (h1 : format_step net fs
        (joinPath (joinPath dst book.pkg) (mkFname book.title book.author (pdfUrl u)))
        (pdfUrl u) = Except.ok st1) :
    download_book book dst false net fs
      = DBResult.ok ⟨book, some ⟨st1.val, SVal.vNone⟩⟩ st1.fs st1.gets st1.trace [] := by
  simp [download_book, hL, parse_book_url_pdf, h1]

theorem download_book_ok_cases (book : Book) (dst : Str) (ge : Bool) (net : Net) (fs : FS)
    (out : BookOut) (fs' : FS) (gets : List Str) (t1 t2 : List SVal)
    (h : download_book book dst ge net fs = DBResult.ok out fs' gets t1 t2) :
    ∃ u st1, net.landing book.url = some u ∧
      format_step net fs
        (joinPath (joinPath dst book.pkg) (mkFname book.title book.author (pdfUrl u)))
        (pdfUrl u) = Except.ok st1 ∧
      t1 = st1.trace ∧
      ((ge = true ∧ ∃ st2,
          format_step net st1.fs
            (joinPath (joinPath dst book.pkg) (mkFname book.title book.author (epubUrl u)))
            (epubUrl u) = Except.ok st2 ∧
          out = ⟨book, some ⟨st1.val, st2.val⟩⟩ ∧ fs' = st2.fs ∧
          gets = st1.gets ++ st2.gets ∧ t2 = st2.trace) ∨
       (ge = false ∧ out = ⟨book, some ⟨st1.val, SVal.vNone⟩⟩ ∧ fs' = st1.fs ∧
          gets = st1.gets ∧ t2 = [])) := by
  cases hL : net.landing book.url with
  | none =>
    rw [download_book_landing_raise book dst ge net fs hL] at h
    exact DBResult.noConfusion h
  | some u =>
    cases hS1 : format_step net fs
        (joinPath (joinPath dst book.pkg) (mkFname book.title book.author (pdfUrl u)))
        (pdfUrl u) with
    | error eg =>
      obtain ⟨g, fs1⟩ := eg
      rw [download_book_asset_raise book dst ge net fs u g fs1 hL hS1] at h
      exact DBResult.noConfusion h
    | ok st1 =>
      cases ge with
      | false =>
        rw [download_book_build_false book dst net fs u st1 hL hS1] at h
        refine ⟨u, st1, rfl, hS1, ?_, ?_⟩
        · cases h
          rfl
        · right
          cases h
          exact ⟨rfl, rfl, rfl, rfl, rfl⟩
      | true =>
        cases hS2 : format_step net st1.fs
            (joinPath (joinPath dst book.pkg) (mkFname book.title book.author (epubUrl u)))
            (epubUrl u) with
        | error eg =>
          obtain ⟨g, fs2⟩ := eg
          have hexn : download_book book dst true net fs = DBResult.exn fs2 (st1.gets ++ g) := by
            simp [download_book, hL, parse_book_url_pdf, parse_book_url_epub, hS1, hS2]
          rw [hexn] at h
          exact DBResult.noConfusion h
        | ok st2 =>
          rw [download_book_build_true book dst net fs u st1 st2 hL hS1 hS2] at h
          refine ⟨u, st1, rfl, hS1, ?_, ?_⟩
          · cases h
            rfl
          · left
            cases h
            exact ⟨rfl, st2, hS2, rfl, rfl, rfl, rfl⟩

/-- C1: for every landing URL containing the literal substring "book",
resolving for pdf returns the percent-decoded input with "book" replaced by
"content/pdf" (plain substring replacement) and ".pdf" appended, so the
result ends in ".pdf"; resolving for epub returns the decoded input with
"book" replaced by "download/epub", ending in ".epub". -/
theorem C1_parse_book_url_rewrites (url title author : Str)
    (h : containsSub "book".toList url = true) :
    (∃ fn, parse_book_url url title author "pdf".toList
        = Except.ok
            (replaceAll "book".toList "content/pdf".toList (unquote url) ++ ".pdf".toList,
             fn) ∧
      ".pdf".toList <:+
        replaceAll "book".toList "content/pdf".toList (unquote url) ++ ".pdf".toList) ∧
    (∃ fn, parse_book_url url title author "epub".toList
        = Except.ok
            (replaceAll "book".toList "download/epub".toList (unquote url) ++ ".epub".toList,
             fn) ∧
      ".epub".toList <:+
        replaceAll "book".toList "download/epub".toList (unquote url) ++ ".epub".toList) := by
  constructor
  · exact ⟨mkFname title author (pdfUrl url),
      parse_book_url_pdf url title author, List.suffix_append _ _⟩
  · exact ⟨mkFname title author (epubUrl url),
      parse_book_url_epub url title author, List.suffix_append _ _⟩

/-- Witness for C1 at the concrete landing URL "https://x/book/1". -/
theorem C1_witness :
    containsSub "book".toList "https://x/book/1".toList = true ∧
    ((∃ fn, parse_book_url "https://x/book/1".toList "T".toList "A".toList "pdf".toList
        = Except.ok
            (replaceAll "book".toList "content/pdf".toList
               (unquote "https://x/book/1".toList) ++ ".pdf".toList, fn) ∧
      ".pdf".toList <:+
        replaceAll "book".toList "content/pdf".toList
          (unquote "https://x/book/1".toList) ++ ".pdf".toList) ∧
    (∃ fn, parse_book_url "https://x/book/1".toList "T".toList "A".toList "epub".toList
        = Except.ok
            (replaceAll "book".toList "download/epub".toList
               (unquote "https://x/book/1".toList) ++ ".epub".toList, fn) ∧
      ".epub".toList <:+
        replaceAll "book".toList "download/epub".toList
          (unquote "https://x/book/1".toList) ++ ".epub".toList)) :=
  ⟨by decide,
   C1_parse_book_url_rewrites "https://x/book/1".toList "T".toList "A".toList (by decide)⟩

/-- C2 counterexample: on the spec's concrete example the code does not
return the claimed filename.  `os.path.split` takes the part after the last
slash of the decoded URL, so the DOI prefix "10.1007/" is cut off entirely
(it is not sanitized to "10.1007_"), and no slash-to-underscore replacement
is applied to that component. -/
theorem C2_counterexample :
    parse_book_url "https://link.example.com/book/10.1007%2F978-3-319-00000-0".toList
        "My Title".toList "A. Author".toList "pdf".toList
      ≠ Except.ok
          ("https://link.example.com/content/pdf/10.1007/978-3-319-00000-0.pdf".toList,
           "My Title - A. Author - 10.1007_978-3-319-00000-0.pdf".toList) := by
  decide

/-- C2 amended: on that input the direct URL is as claimed, but the local
filename is "My Title - A. Author - 978-3-319-00000-0.pdf": the third
component is the basename after the last slash of the decoded direct URL,
so the decoded DOI slash truncates the segment instead of being sanitized
to an underscore. -/
theorem C2_amended_eval :
    parse_book_url "https://link.example.com/book/10.1007%2F978-3-319-00000-0".toList
        "My Title".toList "A. Author".toList "pdf".toList
      = Except.ok
          ("https://link.example.com/content/pdf/10.1007/978-3-319-00000-0.pdf".toList,
           "My Title - A. Author - 978-3-319-00000-0.pdf".toList) := by
  decide

/-- C7 counterexample: the format string "PDF" lies outside {"pdf", "epub"},
yet `parse_book_url` succeeds on it instead of failing, because the code
lower-cases the format before comparing. -/
theorem C7_counterexample :
    ("PDF".toList ≠ "pdf".toList ∧ "PDF".toList ≠ "epub".toList) ∧
    parse_book_url "https://x/book/1".toList "T".toList "A".toList "PDF".toList
      = Except.ok ("https://x/content/pdf/1.pdf".toList, "T - A - 1.pdf".toList) := by
  exact ⟨⟨by decide, by decide⟩, by decide⟩

/-- C7 amended: `parse_book_url` is a pure total function (its embedding has
no effect type, so it performs no network call on any input); it returns the
`ValueError` exactly for format values whose lower-casing lies outside
{pdf, epub}, and succeeds on every format value lower-casing to pdf or
epub. -/
theorem C7_parse_book_url_total (url title author format_ : Str) :
    (lowerStr format_ ≠ "pdf".toList → lowerStr format_ ≠ "epub".toList →
      parse_book_url url title author format_ = Except.error PyError.valueError) ∧
    ((lowerStr format_ = "pdf".toList ∨ lowerStr format_ = "epub".toList) →
      ∃ du fn, parse_book_url url title author format_ = Except.ok (du, fn)) := by
  constructor
  · intro h1 h2
    have h1' : lowerStr format_ ≠ ['p', 'd', 'f'] := h1
    have h2' : lowerStr format_ ≠ ['e', 'p', 'u', 'b'] := h2
    simp [parse_book_url, h1', h2']
  · rintro (hf | hf)
    · simp only [parse_book_url, if_pos hf]
      exact ⟨_, _, rfl⟩
    · have h1 : lowerStr format_ ≠ "pdf".toList := by
        rw [hf]
        decide
      simp only [parse_book_url, if_neg h1, if_pos hf]
      exact ⟨_, _, rfl⟩

/-- Witness for C7 amended: "mobi" fails with the ValueError; "EPUB"
(lower-casing to epub) succeeds. -/
theorem C7_witness :
    parse_book_url "https://x/book/1".toList "T".toList "A".toList "mobi".toList
      = Except.error PyError.valueError ∧
    (∃ du fn, parse_book_url "https://x/book/1".toList "T".toList "A".toList "EPUB".toList
      = Except.ok (du, fn)) :=
  ⟨(C7_parse_book_url_total "https://x/book/1".toList "T".toList "A".toList
      "mobi".toList).1 (by decide) (by decide),
   (C7_parse_book_url_total "https://x/book/1".toList "T".toList "A".toList
      "EPUB".toList).2 (Or.inr (by decide))⟩

theorem book_info_ok (rows : List Row) (h : ∀ r ∈ rows, r.pkg ≠ none) :
    book_info_from_table rows = Except.ok (rows.map okRow) := by
  induction rows with
  | nil => rfl
  | cons r rs ih =>
    have hr : r.pkg ≠ none := h r (List.mem_cons_self _ _)
    obtain ⟨p, hp⟩ := Option.ne_none_iff_exists'.mp hr
    have hrow : rowToBook r = Except.ok (okRow r) := by
      simp [rowToBook, hp, okRow]
    have ihh := ih (fun q hq => h q (List.mem_cons_of_mem _ hq))
    simp [book_info_from_table, hrow, ihh]

theorem book_info_err :
    ∀ (l1 : List Row) (r : Row) (l2 : List Row), r.pkg = none →
      (∀ q ∈ l1, q.pkg ≠ none) →
      book_info_from_table (l1 ++ r :: l2) = Except.error PyError.attributeError := by
  intro l1
  induction l1 with
  | nil =>
    intro r l2 hr _
    have hrow : rowToBook r = Except.error PyError.attributeError := by
      simp [rowToBook, hr]
    simp [book_info_from_table, hrow]
  | cons q l1' ih =>
    intro r l2 hr hq
    have hqi : q.pkg ≠ none := hq q (List.mem_cons_self _ _)
    obtain ⟨p, hp⟩ := Option.ne_none_iff_exists'.mp hqi
    have hrow : rowToBook q = Except.ok (okRow q) := by
      simp [rowToBook, hp, okRow]
    have ihh := ih r l2 hr (fun x hx => hq x (List.mem_cons_of_mem _ hx))
    simp [book_info_from_table, hrow, ihh]

/-- C9 amended: `book_info_from_table` maps each row with a present package
cell to exactly one record (title, author and url passed through even when
missing, so missing values in those fields are silently forwarded, not
rejected); a missing package cell aborts the whole read, but with an
`AttributeError` from calling `.replace` on the NaN cell, not with a
dedicated MalformedCatalogError. -/
theorem C9_book_info (rows : List Row) :
    ((∀ r ∈ rows, r.pkg ≠ none) →
      book_info_from_table rows = Except.ok (rows.map okRow) ∧
      (rows.map okRow).length = rows.length) ∧
    (∀ l1 r l2, rows = l1 ++ r :: l2 → r.pkg = none → (∀ q ∈ l1, q.pkg ≠ none) →
      book_info_from_table rows = Except.error PyError.attributeError) := by
  constructor
  · intro h
    exact ⟨book_info_ok rows h, List.length_map _ _⟩
  · intro l1 r l2 hsplit hr hq
    rw [hsplit]
    exact book_info_err l1 r l2 hr hq

/-- C9 counterexample: a row whose title cell is missing is passed straight
through with the missing value and the read succeeds, instead of the whole
read failing with a MalformedCatalogError. -/
theorem C9_counterexample :
    book_info_from_table [⟨none, some "A".toList, some "P Q,R".toList, some "u".toList⟩]
      = Except.ok [⟨none, some "A".toList, some "P_QR".toList, some "u".toList⟩] := by
  decide

/-- Witness for C9 amended, at a one-row table with all cells present and at
a one-row table whose package cell is missing. -/
theorem C9_witness :
    (book_info_from_table rowsW = Except.ok (rowsW.map okRow) ∧
      (rowsW.map okRow).length = rowsW.length) ∧
    book_info_from_table [rowBad] = Except.error PyError.attributeError :=
  ⟨(C9_book_info rowsW).1 (by decide),
   (C9_book_info [rowBad]).2 [] rowBad [] rfl (by decide) (by decide)⟩

/-- C10: when the decoded landing URL contains the substring "book" more
than once (written as two or more separator positions of an `interc`
decomposition with occurrence-free gap pieces), `parse_book_url` replaces
every occurrence with the format-specific replacement, not only the first:
the output URL is the same decomposition joined with "content/pdf"
(respectively "download/epub") instead of "book". -/
theorem C10_replaces_all_occurrences (url title author : Str)
    (init : List Str) (last : Str)
    (hocc : 2 ≤ init.length)
    (hdec : unquote url = interc "book".toList (init ++ [last]))
    (hclean : ∀ g ∈ init, cleanJunction g "book".toList = true)
    (hlast : containsSub "book".toList last = false) :
    (∃ fn, parse_book_url url title author "pdf".toList
        = Except.ok (interc "content/pdf".toList (init ++ [last]) ++ ".pdf".toList, fn)) ∧
    (∃ fn, parse_book_url url title author "epub".toList
        = Except.ok (interc "download/epub".toList (init ++ [last]) ++ ".epub".toList, fn)) := by
  have hbook : ("book".toList : Str) ≠ [] := by decide
  have hUrl1 : pdfUrl url = interc "content/pdf".toList (init ++ [last]) ++ ".pdf".toList := by
    unfold pdfUrl
    rw [hdec, replaceAll_interc _ _ hbook init last hclean hlast]
  have hUrl2 : epubUrl url = interc "download/epub".toList (init ++ [last]) ++ ".epub".toList := by
    unfold epubUrl
    rw [hdec, replaceAll_interc _ _ hbook init last hclean hlast]
  constructor
  · refine ⟨mkFname title author (pdfUrl url), ?_⟩
    rw [← hUrl1]
    exact parse_book_url_pdf url title author
  · refine ⟨mkFname title author (epubUrl url), ?_⟩
    rw [← hUrl2]
    exact parse_book_url_epub url title author

/-- Witness for C10 at the decoded URL "https://x/book/my" ++ "book" ++ "/1",
which contains "book" twice. -/
theorem C10_witness :
    2 ≤ ([("https://x/".toList : Str), "/my".toList] : List Str).length ∧
    ((∃ fn, parse_book_url "https://x/book/mybook/1".toList "T".toList "A".toList "pdf".toList
        = Except.ok (interc "content/pdf".toList
            ([("https://x/".toList : Str), "/my".toList] ++ ["/1".toList]) ++ ".pdf".toList, fn)) ∧
    (∃ fn, parse_book_url "https://x/book/mybook/1".toList "T".toList "A".toList "epub".toList
        = Except.ok (interc "download/epub".toList
            ([("https://x/".toList : Str), "/my".toList] ++ ["/1".toList]) ++ ".epub".toList, fn))) :=
  ⟨by decide,
   C10_replaces_all_occurrences "https://x/book/mybook/1".toList "T".toList "A".toList
     [("https://x/".toList : Str), "/my".toList] "/1".toList
     (by decide) (by decide) (by decide) (by decide)⟩

theorem download_books_order (dst : Str) (books : List Book) (ge : Bool) (net : Net)
    (fs : FS) : (download_books dst books ge net fs).map BookOut.book = books := by
  induction books with
  | nil => rfl
  | cons b bs ih =>
    simp only [download_books, List.map_cons] at ih ⊢
    congr 1
    cases hdb : download_book b dst ge net fs with
    | exn fsx gx => rfl
    | ok out fsx gx ta tb =>
      obtain ⟨u, st1, -, -, -, hcase⟩ :=
        download_book_ok_cases b dst ge net fs out fsx gx ta tb hdb
      rcases hcase with ⟨-, st2, -, hout, -, -, -⟩ | ⟨-, hout, -, -, -⟩ <;> rw [hout]

/-- C3 counterexample: for `bookAssetRaise` under `netFix` the pdf asset
fetch raises; `download_book` then terminates as a propagated exception
(no outcome is attached to the book and the epub attempt never happens),
so the failure does escape `download_book`. -/
theorem C3_counterexample :
    download_book bookAssetRaise "d".toList true netFix []
      = DBResult.exn [] ["https://y/content/pdf/2.pdf".toList] := by
  decide

/-- C3 amended: a raised exception during the pdf asset fetch propagates out
of `download_book`: the run ends in the exception result (so no per-format
outcome is recorded on the book), the filesystem is unchanged, and the epub
attempt never takes place — only the pdf GET was issued.  Only a non-200
response (not a raised exception) is recorded as a Failed outcome. -/
theorem C3_asset_raise_propagates (book : Book) (dst : Str) (ge : Bool) (net : Net)
    (fs : FS) (u : Str)
    (hL : net.landing book.url = some u)
    (hNo : fsExists fs (joinPath (joinPath dst book.pkg)
        (mkFname book.title book.author (pdfUrl u))) = false)
    (hRaise : net.asset (pdfUrl u) = none) :
    download_book book dst ge net fs = DBResult.exn fs [pdfUrl u] :=
  download_book_asset_raise book dst ge net fs u [pdfUrl u] fs hL
    (format_step_raise net fs _ (pdfUrl u) hNo hRaise)

/-- Witness for C3 amended at the concrete fixtures. -/
theorem C3_witness :
    download_book bookAssetRaise "d".toList true netFix []
      = DBResult.exn [] [pdfUrl "https://y/book/2".toList] :=
  C3_asset_raise_propagates bookAssetRaise "d".toList true netFix []
    "https://y/book/2".toList (by decide) (by decide) (by decide)

/-- C4 counterexample: in a three-book batch, the book whose landing fetch
raises (`bookBad`) comes back with NO outcome at all (`success = none`)
rather than an outcome marking it failed-to-resolve, and it is
indistinguishable from `bookAssetRaise`, whose landing fetch succeeded but
whose asset fetch raised — both end with `success = none`. -/
theorem C4_counterexample :
    (download_books "d".toList [bookBad, bookA, bookAssetRaise] false netFix []).map
        BookOut.success
      = [none, some ⟨SVal.vTrue, SVal.vNone⟩, none] := by
  decide

/-- C4 amended: `download_books` always returns one entry per book in input
order; a book whose landing-page fetch raises contributes the entry
`⟨b, none⟩` (no success mapping attached) while every other book's entry is
computed from its own `download_book` run alone, unaffected by the
failure. -/
theorem C4_download_books_isolation (dst : Str) (ge : Bool) (net : Net) (fs : FS)
    (l1 l2 : List Book) (b : Book) (hL : net.landing b.url = none) :
    download_books dst (l1 ++ b :: l2) ge net fs
      = download_books dst l1 ge net fs
        ++ BookOut.mk b none :: download_books dst l2 ge net fs ∧
    (download_books dst (l1 ++ b :: l2) ge net fs).map BookOut.book = l1 ++ b :: l2 := by
  constructor
  · simp only [download_books, List.map_append, List.map_cons]
    rw [download_book_landing_raise b dst ge net fs hL]
  · exact download_books_order dst (l1 ++ b :: l2) ge net fs

/-- Witness for C4 amended at the concrete fixtures. -/
theorem C4_witness :
    download_books "d".toList ([] ++ bookBad :: [bookA]) false netFix []
      = download_books "d".toList [] false netFix []
        ++ BookOut.mk bookBad none :: download_books "d".toList [bookA] false netFix [] ∧
    (download_books "d".toList ([] ++ bookBad :: [bookA]) false netFix []).map BookOut.book
      = [] ++ bookBad :: [bookA] :=
  C4_download_books_isolation "d".toList false netFix [] [] [bookA] bookBad (by decide)

/-- C5: the per-format block of `download_book` (lines 87-95 and 103-111 of
main.py, embodied by `format_step`): when the target file exists the outcome
is the skip value "exists" and no GET is issued and the filesystem is
untouched; otherwise a GET is issued and, on status 200, the full body is
written to the target and the outcome is True exactly when the written body
is nonempty (else False); on any non-200 status the outcome is False and
nothing is written. -/
theorem C5_format_step_contract (net : Net) (fs : FS) (fpath durl : Str) :
    (fsExists fs fpath = true →
      format_step net fs fpath durl = Except.ok ⟨SVal.vExists, [SVal.vExists], [], fs⟩) ∧
    (fsExists fs fpath = false → ∀ body, net.asset durl = some (200, body) →
      format_step net fs fpath durl
        = Except.ok ⟨if 0 < body.length then SVal.vTrue else SVal.vFalse,
            [SVal.vFalse, if 0 < body.length then SVal.vTrue else SVal.vFalse],
            [durl], fsWrite fs fpath body⟩) ∧
    (fsExists fs fpath = false → ∀ status body, net.asset durl = some (status, body) →
      status ≠ 200 →
      format_step net fs fpath durl = Except.ok ⟨SVal.vFalse, [SVal.vFalse], [durl], fs⟩) :=
  ⟨fun h => format_step_skip net fs fpath durl h,
   fun h body ha => format_step_200 net fs fpath durl body h ha,
   fun h status body ha hst => format_step_non200 net fs fpath durl status body h ha hst⟩

/-- Witness for C5, covering the skip, 200 and non-200 branches. -/
theorem C5_witness :
    format_step netFix fs1W "d/P/T - A - 1.pdf".toList "x".toList
      = Except.ok ⟨SVal.vExists, [SVal.vExists], [], fs1W⟩ ∧
    format_step netFix [] "p".toList "dl".toList
      = Except.ok ⟨if 0 < [7].length then SVal.vTrue else SVal.vFalse,
          [SVal.vFalse, if 0 < [7].length then SVal.vTrue else SVal.vFalse],
          ["dl".toList], fsWrite [] "p".toList [7]⟩ ∧
    format_step net404 [] "p".toList "dl".toList
      = Except.ok ⟨SVal.vFalse, [SVal.vFalse], ["dl".toList], []⟩ :=
  ⟨(C5_format_step_contract netFix fs1W "d/P/T - A - 1.pdf".toList "x".toList).1 (by decide),
   (C5_format_step_contract netFix [] "p".toList "dl".toList).2.1 (by decide) [7] (by decide),
   (C5_format_step_contract net404 [] "p".toList "dl".toList).2.2
     (by decide) 404 [7] (by decide) (by decide)⟩

/-- C6: if a run of `download_book` (with epub requested) completed with
both formats succeeding, then a second run against the resulting filesystem
records "exists" for both formats, issues no asset GET requests, and leaves
the filesystem unchanged: the deterministic filenames make the second run a
skip for both formats. -/
theorem C6_second_run_skips (book : Book) (dst : Str) (net : Net) (fs fs1 : FS)
    (out : BookOut) (gets : List Str) (t1 t2 : List SVal)
    (h : download_book book dst true net fs = DBResult.ok out fs1 gets t1 t2)
    (hs : out.success = some ⟨SVal.vTrue, SVal.vTrue⟩) :
    download_book book dst true net fs1
      = DBResult.ok ⟨book, some ⟨SVal.vExists, SVal.vExists⟩⟩ fs1 []
          [SVal.vExists] [SVal.vExists] := by
  obtain ⟨u, st1, hL, hS1, -, hcase⟩ :=
    download_book_ok_cases book dst true net fs out fs1 gets t1 t2 h
  rcases hcase with ⟨-, st2, hS2, hout, hfs, -, -⟩ | ⟨hfalse, -, -, -, -⟩
  · rw [hout] at hs
    have hv : (⟨st1.val, st2.val⟩ : Success) = ⟨SVal.vTrue, SVal.vTrue⟩ :=
      Option.some.inj hs
    have hv1 : st1.val = SVal.vTrue := congrArg Success.pdf hv
    have hv2 : st2.val = SVal.vTrue := congrArg Success.epub hv
    have hpdf1 : fsExists st1.fs (joinPath (joinPath dst book.pkg)
        (mkFname book.title book.author (pdfUrl u))) = true :=
      format_step_vTrue_written net fs _ _ st1 hS1 hv1
    have hep2 : fsExists st2.fs (joinPath (joinPath dst book.pkg)
        (mkFname book.title book.author (epubUrl u))) = true :=
      format_step_vTrue_written net st1.fs _ _ st2 hS2 hv2
    have hpdf2 : fsExists st2.fs (joinPath (joinPath dst book.pkg)
        (mkFname book.title book.author (pdfUrl u))) = true :=
      format_step_ok_mono net st1.fs _ _ st2 hS2 _ hpdf1
    subst hfs
    have hstep1 := format_step_skip net st2.fs (joinPath (joinPath dst book.pkg)
        (mkFname book.title book.author (pdfUrl u))) (pdfUrl u) hpdf2
    have hstep2 := format_step_skip net st2.fs (joinPath (joinPath dst book.pkg)
        (mkFname book.title book.author (epubUrl u))) (epubUrl u) hep2
    exact download_book_build_true book dst net st2.fs u
      ⟨SVal.vExists, [SVal.vExists], [], st2.fs⟩ ⟨SVal.vExists, [SVal.vExists], [], st2.fs⟩
      hL hstep1 hstep2
  · exact Bool.noConfusion hfalse

/-- Witness for C6: the concrete first run against `netFix` succeeded for
both formats, and the second run skips both. -/
theorem C6_witness :
    download_book bookA "d".toList true netFix fs1W
      = DBResult.ok ⟨bookA, some ⟨SVal.vExists, SVal.vExists⟩⟩ fs1W []
          [SVal.vExists] [SVal.vExists] :=
  C6_second_run_skips bookA "d".toList netFix [] fs1W
    ⟨bookA, some ⟨SVal.vTrue, SVal.vTrue⟩⟩ gets1W
    [SVal.vFalse, SVal.vTrue] [SVal.vFalse, SVal.vTrue] (by decide) (by decide)

/-- C8 counterexample: in a completed 200-status download the pdf outcome
cell is assigned twice — a provisional False before the GET and the final
value after the write — so the outcome is not write-once and the first
assignment happens before the attempt completes. -/
theorem C8_counterexample :
    download_book bookA "d".toList false netFix []
      = DBResult.ok ⟨bookA, some ⟨SVal.vTrue, SVal.vNone⟩⟩
          [("d/P/T - A - 1.pdf".toList, [7])] ["https://x/content/pdf/1.pdf".toList]
          [SVal.vFalse, SVal.vTrue] [] ∧
    ¬ ([SVal.vFalse, SVal.vTrue].length ≤ 1) :=
  ⟨by decide, by decide⟩

/-- C8 amended: in every completed `download_book` run, each format's
outcome cell is assigned at most twice: exactly once (its final value) in
the skip and non-200 paths, and twice in the 200 path — a provisional
False before the GET, overwritten by the final value after the write.  The
final trace entry always equals the recorded outcome, and a format that was
not requested is never assigned. -/
theorem C8_outcome_written_twice (book : Book) (dst : Str) (ge : Bool) (net : Net)
    (fs : FS) (out : BookOut) (fs' : FS) (gets : List Str) (t1 t2 : List SVal)
    (h : download_book book dst ge net fs = DBResult.ok out fs' gets t1 t2) :
    ∃ s, out.success = some s ∧
      ((t1 = [s.pdf] ∧ (s.pdf = SVal.vExists ∨ s.pdf = SVal.vFalse)) ∨
        t1 = [SVal.vFalse, s.pdf]) ∧
      (ge = true →
        ((t2 = [s.epub] ∧ (s.epub = SVal.vExists ∨ s.epub = SVal.vFalse)) ∨
          t2 = [SVal.vFalse, s.epub])) ∧
      (ge = false → t2 = [] ∧ s.epub = SVal.vNone) := by
  obtain ⟨u, st1, hL, hS1, ht1, hcase⟩ :=
    download_book_ok_cases book dst ge net fs out fs' gets t1 t2 h
  rcases hcase with ⟨hge, st2, hS2, hout, -, -, ht2⟩ | ⟨hge, hout, -, -, ht2⟩
  · refine ⟨⟨st1.val, st2.val⟩, by rw [hout], ?_, ?_, ?_⟩
    · rw [ht1]
      exact format_step_trace_shape net fs _ _ st1 hS1
    · intro _
      rw [ht2]
      exact format_step_trace_shape net st1.fs _ _ st2 hS2
    · intro hgf
      rw [hge] at hgf
      exact Bool.noConfusion hgf
  · refine ⟨⟨st1.val, SVal.vNone⟩, by rw [hout], ?_, ?_, ?_⟩
    · rw [ht1]
      exact format_step_trace_shape net fs _ _ st1 hS1
    · intro hgt
      rw [hge] at hgt
      exact Bool.noConfusion hgt
    · intro _
      exact ⟨ht2, rfl⟩

/-- Witness for C8 amended at the concrete completed pdf-only run. -/
theorem C8_witness :
    ∃ s, (⟨bookA, some ⟨SVal.vTrue, SVal.vNone⟩⟩ : BookOut).success = some s ∧
      (([SVal.vFalse, SVal.vTrue] = [s.pdf] ∧
          (s.pdf = SVal.vExists ∨ s.pdf = SVal.vFalse)) ∨
        [SVal.vFalse, SVal.vTrue] = [SVal.vFalse, s.pdf]) ∧
      (false = true →
        ((([] : List SVal) = [s.epub] ∧ (s.epub = SVal.vExists ∨ s.epub = SVal.vFalse)) ∨
          ([] : List SVal) = [SVal.vFalse, s.epub])) ∧
      (false = false → ([] : List SVal) = [] ∧ s.epub = SVal.vNone) :=
  C8_outcome_written_twice bookA "d".toList false netFix []
    ⟨bookA, some ⟨SVal.vTrue, SVal.vNone⟩⟩ [("d/P/T - A - 1.pdf".toList, [7])]
    ["https://x/content/pdf/1.pdf".toList] [SVal.vFalse, SVal.vTrue] [] (by decide)

end Springer
